import Mathlib

/-
Verification of the feed-synchronisation program generate_feed.py: a shallow
embedding of its cursor store, content renderer, feed store, merge engine and
main control flow, with theorems settling the specified properties.

Python strings are modelled as Lean String (a list of characters); Python
dictionaries as association lists with last-write-wins lookup; optional JSON
fields as Option; file-system state as an explicit record threaded through the
model of main.
-/

namespace TwitterFeed

/-- Size cap on the feed, constant MAX_ITEMS in generate_feed.py. -/
def MAX_ITEMS : Nat := 500

/-- Splits a character list at the first occurrence of the pattern pat:
returns the segment before that occurrence and the segment after it, or none
when pat does not occur.  Helper for modelling leftmost regex search. -/
def splitFirst (pat : List Char) : List Char → Option (List Char × List Char)
  | [] => none
  | c :: rest =>
    if pat.isPrefixOf (c :: rest) then some ([], (c :: rest).drop pat.length)
    else
      match splitFirst pat rest with
      | some (pre, post) => some (c :: pre, post)
      | none => none

/-- Model of searching a character list for the pattern <guid>(.*?)</guid>
without DOTALL: at the leftmost position where <guid> matches, the lazy group
takes the shortest run of non-newline characters followed by </guid>; if no
closing tag occurs on the same line the search resumes one position further
right. -/
def guidSearch : List Char → Option (List Char)
  | [] => none
  | c :: rest =>
    if ("<guid>".data).isPrefixOf (c :: rest) then
      match splitFirst ("</guid>".data) (((c :: rest).drop 6).takeWhile (fun x => x ≠ '\n')) with
      | some (mid, _) => some mid
      | none => guidSearch rest
    else guidSearch rest

/-- Model of re.search applied with the guid pattern to an item string, as done
in parse_existing_items (line 247) and in main (line 316): the first guid
element content, or none when the pattern does not occur. -/
def extractGuid (item : String) : Option String :=
  (guidSearch item.data).map String.mk

/-- Lines 314 to 318 of main: the set of guids extracted from the newly
rendered items (items where the search fails contribute nothing). -/
def newGuidSet (new_items : List String) : List String :=
  new_items.filterMap extractGuid

/-- Model of parse_existing_items (lines 236 to 251) applied to the list of
item blocks of the stored document: each block is paired with the guid
extracted from it, none when the guid cannot be located. -/
def toStoredEntries (stored : List String) : List (Option String × String) :=
  stored.map (fun x => (extractGuid x, x))

/-- The dedup filter condition of line 322: a stored entry is kept when its
guid is not in the new-guid set; an entry with no located guid is always kept
(in Python, None is never a member of a set of strings). -/
def keepStored (new_guids : List String) (p : Option String × String) : Bool :=
  match p.1 with
  | none => true
  | some g => !(new_guids.contains g)

/-- The merge of main, lines 313 to 326: compute the guids of the new items,
drop stored entries whose guid is among them, put the new items first and the
surviving stored entries after, and truncate to MAX_ITEMS. -/
def mergeItems (new_items : List String) (existing : List (Option String × String)) : List String :=
  let new_guids := newGuidSet new_items
  let existing_items := (existing.filter (keepStored new_guids)).map Prod.snd
  let all_items := new_items ++ existing_items
  all_items.take MAX_ITEMS

example : extractGuid "      <guid>123</guid>" = some "123" := by decide
example : extractGuid "<p>hi</p>" = none := by decide
example : mergeItems ["<guid>6</guid>x"] (toStoredEntries ["<guid>5</guid>a", "<guid>4</guid>b"]) =
    ["<guid>6</guid>x", "<guid>5</guid>a", "<guid>4</guid>b"] := by decide
example : mergeItems ["<guid>4</guid>new"] (toStoredEntries ["<guid>5</guid>a", "<guid>4</guid>old", "<guid>3</guid>c"]) =
    ["<guid>4</guid>new", "<guid>5</guid>a", "<guid>3</guid>c"] := by decide

/-- C1: For every list of newly rendered entries N (newest-first) and every
list of previously stored (guid, markup) pairs P, the merge produces exactly N
concatenated with those elements of P whose guid is not in the set of guids
extracted from N, truncated to the first 500 elements; every element of N
precedes every retained element of P, and the relative order within N and
within the retained part of P is preserved. -/
theorem mergeItems_characterisation (n : List String) (e : List (Option String × String)) :
    mergeItems n e = (n ++ (e.filter (keepStored (newGuidSet n))).map Prod.snd).take MAX_ITEMS ∧
    (∀ p, keepStored (newGuidSet n) p = true ↔ ∀ g, p.1 = some g → g ∉ newGuidSet n) ∧
    (n.length ≤ MAX_ITEMS →
      mergeItems n e =
        n ++ ((e.filter (keepStored (newGuidSet n))).map Prod.snd).take (MAX_ITEMS - n.length)) ∧
    ((e.filter (keepStored (newGuidSet n))).map Prod.snd).Sublist (e.map Prod.snd) := by
  refine ⟨rfl, ?_, ?_, ?_⟩
  · intro p
    cases hp : p.1 with
    | none => simp [keepStored, hp]
    | some g => simp [keepStored, hp]
  · intro hn
    have h := @List.take_append_eq_append_take String
      n ((e.filter (keepStored (newGuidSet n))).map Prod.snd) MAX_ITEMS
    simpa [mergeItems, List.take_of_length_le hn] using h
  · exact (List.filter_sublist e).map Prod.snd

/-- Closed instance discharging the hypothesis of mergeItems_characterisation. -/
theorem mergeItems_characterisation_witness :
    mergeItems ["<guid>6</guid>x"] (toStoredEntries ["<guid>5</guid>a"]) =
      ["<guid>6</guid>x"] ++
        (((toStoredEntries ["<guid>5</guid>a"]).filter
          (keepStored (newGuidSet ["<guid>6</guid>x"]))).map Prod.snd).take (MAX_ITEMS - 1) := by
  have h := (mergeItems_characterisation ["<guid>6</guid>x"] (toStoredEntries ["<guid>5</guid>a"])).2.2.1
  exact h (by decide)

/-- C2: the merge is idempotent: with an empty new-entry list and any stored
entry list P of length at most 500, the merge returns exactly the stored
markups, unchanged in content and order. -/
theorem mergeItems_empty_new (e : List (Option String × String)) (h : e.length ≤ 500) :
    mergeItems [] e = e.map Prod.snd := by
  have hkeep : ∀ p ∈ e, keepStored (newGuidSet []) p = true := by
    intro p _
    cases hp : p.1 with
    | none => simp [keepStored, hp]
    | some g => simp [keepStored, hp, newGuidSet]
  have hfilter : e.filter (keepStored (newGuidSet [])) = e := List.filter_eq_self.mpr hkeep
  have hlen : (e.map Prod.snd).length ≤ MAX_ITEMS := by simpa [MAX_ITEMS] using h
  simp [mergeItems, hfilter, List.take_of_length_le hlen]

/-- Closed instance discharging the hypothesis of mergeItems_empty_new. -/
theorem mergeItems_empty_new_witness :
    mergeItems [] (toStoredEntries ["<guid>5</guid>a", "<guid>4</guid>b"]) =
      (toStoredEntries ["<guid>5</guid>a", "<guid>4</guid>b"]).map Prod.snd :=
  mergeItems_empty_new _ (by decide)

/-- Counting items by extracted guid agrees with counting in the extracted
guid list. -/
theorem countP_extractGuid (g : String) (l : List String) :
    l.countP (fun x => extractGuid x == some g) = (l.filterMap extractGuid).count g := by
  induction l with
  | nil => rfl
  | cons a l ih =>
    cases h : extractGuid a with
    | none => simp [List.countP_cons, List.filterMap_cons, h, ih]
    | some b =>
      by_cases hb : b = g
      · simp [List.countP_cons, List.filterMap_cons, h, hb, ih, List.count_cons]
      · simp [List.countP_cons, List.filterMap_cons, h, hb, ih, List.count_cons]

/-- Every entry produced by the feed-store model carries the guid extracted
from its own markup. -/
theorem toStoredEntries_inv (s : List String) :
    ∀ p ∈ toStoredEntries s, p.1 = extractGuid p.2 := by
  intro p hp
  simp only [toStoredEntries, List.mem_map] at hp
  obtain ⟨x, _, rfl⟩ := hp
  rfl

/-- On entry lists whose guid component is the guid extracted from the markup,
extracting guids from the markups recovers the guid components. -/
theorem filterMap_snd_of_inv (l : List (Option String × String))
    (h : ∀ p ∈ l, p.1 = extractGuid p.2) :
    (l.map Prod.snd).filterMap extractGuid = l.filterMap Prod.fst := by
  induction l with
  | nil => rfl
  | cons p l ih =>
    have hp : p.1 = extractGuid p.2 := h p (List.mem_cons_self p l)
    have ht : ∀ q ∈ l, q.1 = extractGuid q.2 := fun q hq => h q (List.mem_cons_of_mem p hq)
    cases hg : extractGuid p.2 with
    | none => simp [List.filterMap_cons, hg, hp.trans hg, ih ht]
    | some b => simp [List.filterMap_cons, hg, hp.trans hg, ih ht]

/-- A stored entry surviving the dedup filter never carries a guid from the
new-guid set. -/
theorem keepStored_no_new_guid (gs : List String) (p : Option String × String)
    (hk : keepStored gs p = true) (g : String) (hg : g ∈ gs) : p.1 ≠ some g := by
  intro hp
  rw [keepStored, hp] at hk
  simp only [Bool.not_eq_true'] at hk
  have : g ∉ gs := by simpa using hk
  exact this hg

/-- C3 counterexample: with two new items both carrying guid g and a stored
entry with guid g, the stored copy is gone but the new copy appears twice, not
exactly once. -/
theorem mergeItems_dedup_cex :
    "g" ∈ newGuidSet ["<guid>g</guid>a", "<guid>g</guid>b"] ∧
    (some "g") ∈ (toStoredEntries ["<guid>g</guid>old"]).map Prod.fst ∧
    (mergeItems ["<guid>g</guid>a", "<guid>g</guid>b"]
        (toStoredEntries ["<guid>g</guid>old"])).countP
      (fun x => extractGuid x == some "g") ≠ 1 := by
  decide

/-- C3 (amended): a stored entry whose guid is among the new guids is removed
by the dedup filter, hence absent from the result; provided the new items have
pairwise-distinct extracted guids and number at most 500, the new copy is
present exactly once in the result; and a stored entry with no located guid
always passes the dedup filter. -/
theorem mergeItems_dedup (n : List String) (s : List String) :
    (∀ g ∈ newGuidSet n,
      ((toStoredEntries s).filter (keepStored (newGuidSet n))).countP
          (fun p => p.1 == some g) = 0 ∧
      ((newGuidSet n).Nodup → n.length ≤ 500 →
        (mergeItems n (toStoredEntries s)).countP
            (fun x => extractGuid x == some g) = 1)) ∧
    (∀ p ∈ toStoredEntries s, p.1 = none →
      p ∈ (toStoredEntries s).filter (keepStored (newGuidSet n))) := by
  constructor
  · intro g hg
    have habs : ((toStoredEntries s).filter (keepStored (newGuidSet n))).countP
        (fun p => p.1 == some g) = 0 := by
      rw [List.countP_eq_zero]
      intro p hp
      have hk := List.of_mem_filter hp
      have := keepStored_no_new_guid (newGuidSet n) p hk g hg
      simpa using this
    refine ⟨habs, ?_⟩
    intro hnd hlen
    have hdecomp := (mergeItems_characterisation n (toStoredEntries s)).2.2.1
      (by simpa [MAX_ITEMS] using hlen)
    rw [hdecomp, List.countP_append]
    have hnew : n.countP (fun x => extractGuid x == some g) = 1 := by
      rw [countP_extractGuid]
      exact List.count_eq_one_of_mem hnd hg
    have hold : (((toStoredEntries s).filter (keepStored (newGuidSet n))).map
        Prod.snd).countP (fun x => extractGuid x == some g) = 0 := by
      rw [List.countP_eq_zero]
      intro x hx
      simp only [List.mem_map] at hx
      obtain ⟨p, hp, rfl⟩ := hx
      have hk := List.of_mem_filter hp
      have hinv := toStoredEntries_inv s p (List.mem_of_mem_filter hp)
      have hne := keepStored_no_new_guid (newGuidSet n) p hk g hg
      rw [hinv] at hne
      simpa using hne
    have htake : ((((toStoredEntries s).filter (keepStored (newGuidSet n))).map
        Prod.snd).take (MAX_ITEMS - n.length)).countP
        (fun x => extractGuid x == some g) = 0 := by
      have hsub := List.take_sublist (MAX_ITEMS - n.length)
        (((toStoredEntries s).filter (keepStored (newGuidSet n))).map Prod.snd)
      have := hsub.countP_le (fun x => extractGuid x == some g)
      omega
    omega
  · intro p hp hnone
    refine List.mem_filter.mpr ⟨hp, ?_⟩
    simp [keepStored, hnone]

/-- Closed instance discharging the hypotheses of mergeItems_dedup. -/
theorem mergeItems_dedup_witness :
    (mergeItems ["<guid>7</guid>x"] (toStoredEntries ["<guid>7</guid>old", "<guid>5</guid>a"])).countP
        (fun x => extractGuid x == some "7") = 1 :=
  ((mergeItems_dedup ["<guid>7</guid>x"] ["<guid>7</guid>old", "<guid>5</guid>a"]).1
    "7" (by decide)).2 (by decide) (by decide)

/-- C4 counterexample: with two new items sharing the guid g and an empty
previous document (whose guids are trivially pairwise distinct), the written
document contains two entries with the same guid. -/
theorem mergeItems_invariant_cex :
    (((toStoredEntries ([] : List String)).filterMap Prod.fst).Nodup) ∧
    ¬ ((mergeItems ["<guid>g</guid>p", "<guid>g</guid>q"]
        (toStoredEntries ([] : List String))).filterMap extractGuid).Nodup := by
  decide

/-- C4 (amended): the merged document always has at most 500 entries; when the
new items have pairwise-distinct extracted guids and the previous document has
pairwise-distinct guids, no two entries of the result share a guid; when the
new items fit under the cap the result is all of them followed by a prefix of
the retained previous entries, so the dropped entries are exactly the tail of
the retained previous list; when the new items alone reach the cap the result
is a prefix of the new items only. -/
theorem mergeItems_invariant (n : List String) (s : List String) :
    (mergeItems n (toStoredEntries s)).length ≤ MAX_ITEMS ∧
    ((newGuidSet n).Nodup → (((toStoredEntries s).filterMap Prod.fst).Nodup) →
      ((mergeItems n (toStoredEntries s)).filterMap extractGuid).Nodup) ∧
    (n.length ≤ MAX_ITEMS →
      mergeItems n (toStoredEntries s) =
        n ++ (((toStoredEntries s).filter (keepStored (newGuidSet n))).map
          Prod.snd).take (MAX_ITEMS - n.length)) ∧
    (MAX_ITEMS ≤ n.length → mergeItems n (toStoredEntries s) = n.take MAX_ITEMS) := by
  refine ⟨?_, ?_, ?_, ?_⟩
  · simp [mergeItems]
  · intro hn hp
    set E := toStoredEntries s with hE
    set B := E.filter (keepStored (newGuidSet n)) with hB
    have hres : (mergeItems n E).Sublist (n ++ B.map Prod.snd) := by
      rw [(mergeItems_characterisation n E).1]
      exact List.take_sublist _ _
    have hsub := hres.filterMap extractGuid
    refine hsub.nodup ?_
    rw [List.filterMap_append]
    have hBinv : ∀ q ∈ B, q.1 = extractGuid q.2 := by
      intro q hq
      exact toStoredEntries_inv s q (List.mem_of_mem_filter hq)
    have hBeq : (B.map Prod.snd).filterMap extractGuid = B.filterMap Prod.fst :=
      filterMap_snd_of_inv B hBinv
    rw [hBeq]
    have hBnodup : (B.filterMap Prod.fst).Nodup :=
      ((List.filter_sublist E).filterMap Prod.fst).nodup hp
    have hdisj : ∀ g ∈ (n.filterMap extractGuid), g ∉ B.filterMap Prod.fst := by
      intro g hg hmem
      rw [List.mem_filterMap] at hmem
      obtain ⟨q, hq, hq1⟩ := hmem
      exact keepStored_no_new_guid (newGuidSet n) q (List.of_mem_filter hq) g hg hq1
    exact List.nodup_append.mpr ⟨hn, hBnodup, fun g hg => hdisj g hg⟩
  · intro hlen
    exact (mergeItems_characterisation n (toStoredEntries s)).2.2.1 hlen
  · intro hlen
    rw [(mergeItems_characterisation n (toStoredEntries s)).1]
    rw [List.take_append_eq_append_take]
    simp [Nat.sub_eq_zero_of_le hlen]

/-- Closed instance discharging the hypotheses of mergeItems_invariant. -/
theorem mergeItems_invariant_witness :
    ((mergeItems ["<guid>6</guid>x"] (toStoredEntries ["<guid>5</guid>a"])).filterMap
      extractGuid).Nodup :=
  (mergeItems_invariant ["<guid>6</guid>x"] ["<guid>5</guid>a"]).2.1 (by decide) (by decide)

/-- Python str.replace with a one-character needle: every occurrence of the
character c is replaced by the string r, left to right, and replacement text is
not rescanned. -/
def replaceChar (c : Char) (r : List Char) (l : List Char) : List Char :=
  l.flatMap (fun x => if x = c then r else [x])

/-- escape_xml, lines 101 to 108: the four chained replace calls, ampersand
first. -/
def escape_xml (l : List Char) : List Char :=
  replaceChar '"' ("&quot;".data)
    (replaceChar '>' ("&gt;".data)
      (replaceChar '<' ("&lt;".data)
        (replaceChar '&' ("&amp;".data) l)))

/-- The character table the spec describes: exactly the four characters
ampersand, less-than, greater-than and double quote become entities, every
other character is left alone. -/
def escChar (x : Char) : List Char :=
  if x = '&' then "&amp;".data
  else if x = '<' then "&lt;".data
  else if x = '>' then "&gt;".data
  else if x = '"' then "&quot;".data
  else [x]

/-- The inverse entity substitution: the four entities back to their
characters, scanning left to right. -/
def unescape_xml : List Char → List Char
  | '&' :: 'a' :: 'm' :: 'p' :: ';' :: rest => '&' :: unescape_xml rest
  | '&' :: 'l' :: 't' :: ';' :: rest => '<' :: unescape_xml rest
  | '&' :: 'g' :: 't' :: ';' :: rest => '>' :: unescape_xml rest
  | '&' :: 'q' :: 'u' :: 'o' :: 't' :: ';' :: rest => '"' :: unescape_xml rest
  | c :: rest => c :: unescape_xml rest
  | [] => []

/-- Line 116 of build_description_html: the body text is escaped and then
every newline becomes the line-break markup. -/
def htmlEscapeBody (l : List Char) : List Char :=
  replaceChar '\n' ("<br>".data) (escape_xml l)

/-- The inverse of the newline conversion: every line-break markup occurrence
back to a newline. -/
def unBr : List Char → List Char
  | '<' :: 'b' :: 'r' :: '>' :: rest => '\n' :: unBr rest
  | c :: rest => c :: unBr rest
  | [] => []

theorem replaceChar_append (c : Char) (r : List Char) (a b : List Char) :
    replaceChar c r (a ++ b) = replaceChar c r a ++ replaceChar c r b := by
  simp [replaceChar]

theorem escape_xml_append (a b : List Char) :
    escape_xml (a ++ b) = escape_xml a ++ escape_xml b := by
  simp [escape_xml, replaceChar_append]

/-- The chained replaces act character by character. -/
theorem escape_xml_eq_flatMap (l : List Char) :
    escape_xml l = l.flatMap escChar := by
  induction l with
  | nil => rfl
  | cons c t ih =>
    have hcons : escape_xml (c :: t) = escape_xml [c] ++ escape_xml t := by
      have := escape_xml_append [c] t
      simpa using this
    have hsingle : escape_xml [c] = escChar c := by
      by_cases h1 : c = '&'
      · subst h1; decide
      · by_cases h2 : c = '<'
        · subst h2; decide
        · by_cases h3 : c = '>'
          · subst h3; decide
          · by_cases h4 : c = '"'
            · subst h4; decide
            · simp [escape_xml, replaceChar, escChar, h1, h2, h3, h4]
    rw [hcons, hsingle, ih, List.flatMap_cons]

theorem unescape_amp (t : List Char) :
    unescape_xml ('&' :: 'a' :: 'm' :: 'p' :: ';' :: t) = '&' :: unescape_xml t := rfl

theorem unescape_lt (t : List Char) :
    unescape_xml ('&' :: 'l' :: 't' :: ';' :: t) = '<' :: unescape_xml t := rfl

theorem unescape_gt (t : List Char) :
    unescape_xml ('&' :: 'g' :: 't' :: ';' :: t) = '>' :: unescape_xml t := rfl

theorem unescape_quot (t : List Char) :
    unescape_xml ('&' :: 'q' :: 'u' :: 'o' :: 't' :: ';' :: t) = '"' :: unescape_xml t := rfl

theorem unBr_br (t : List Char) :
    unBr ('<' :: 'b' :: 'r' :: '>' :: t) = '\n' :: unBr t := rfl

set_option maxHeartbeats 1000000 in
theorem unescape_cons_ne (c : Char) (t : List Char) (h : c ≠ '&') :
    unescape_xml (c :: t) = c :: unescape_xml t := by
  rw [unescape_xml.eq_def]
  split <;> simp_all

theorem unBr_cons_ne (c : Char) (t : List Char) (h : c ≠ '<') :
    unBr (c :: t) = c :: unBr t := by
  rw [unBr.eq_def]
  split <;> simp_all

theorem unBr_chunk (chunk t : List Char) (h : ∀ c ∈ chunk, c ≠ '<') :
    unBr (chunk ++ t) = chunk ++ unBr t := by
  induction chunk with
  | nil => rfl
  | cons c u ih =>
    have hc : c ≠ '<' := h c (List.mem_cons_self c u)
    have hu : ∀ x ∈ u, x ≠ '<' := fun x hx => h x (List.mem_cons_of_mem c hx)
    rw [List.cons_append, unBr_cons_ne c _ hc, ih hu, List.cons_append]

/-- Undoing the inverse substitution after escaping recovers the input. -/
theorem unescape_escape (l : List Char) :
    unescape_xml (escape_xml l) = l := by
  rw [escape_xml_eq_flatMap]
  induction l with
  | nil => rfl
  | cons c t ih =>
    rw [List.flatMap_cons]
    by_cases h1 : c = '&'
    · subst h1
      show unescape_xml ('&' :: 'a' :: 'm' :: 'p' :: ';' :: t.flatMap escChar) = '&' :: t
      rw [unescape_amp, ih]
    · by_cases h2 : c = '<'
      · subst h2
        show unescape_xml ('&' :: 'l' :: 't' :: ';' :: t.flatMap escChar) = '<' :: t
        rw [unescape_lt, ih]
      · by_cases h3 : c = '>'
        · subst h3
          show unescape_xml ('&' :: 'g' :: 't' :: ';' :: t.flatMap escChar) = '>' :: t
          rw [unescape_gt, ih]
        · by_cases h4 : c = '"'
          · subst h4
            show unescape_xml ('&' :: 'q' :: 'u' :: 'o' :: 't' :: ';' :: t.flatMap escChar) =
              '"' :: t
            rw [unescape_quot, ih]
          · have hesc : escChar c = [c] := by simp [escChar, h1, h2, h3, h4]
            rw [hesc, List.singleton_append, unescape_cons_ne c _ h1, ih]

/-- Undoing the line-break conversion on a flat-mapped escaped text yields the
escaped text. -/
theorem unBr_flat (l : List Char) :
    unBr (l.flatMap (fun c => replaceChar '\n' ("<br>".data) (escChar c))) =
      l.flatMap escChar := by
  induction l with
  | nil => rfl
  | cons c t ih =>
    rw [List.flatMap_cons, List.flatMap_cons]
    by_cases h1 : c = '&'
    · subst h1
      rw [show replaceChar '\n' ("<br>".data) (escChar '&') = escChar '&' from by decide]
      rw [unBr_chunk _ _ (by decide), ih]
    · by_cases h2 : c = '<'
      · subst h2
        rw [show replaceChar '\n' ("<br>".data) (escChar '<') = escChar '<' from by decide]
        rw [unBr_chunk _ _ (by decide), ih]
      · by_cases h3 : c = '>'
        · subst h3
          rw [show replaceChar '\n' ("<br>".data) (escChar '>') = escChar '>' from by decide]
          rw [unBr_chunk _ _ (by decide), ih]
        · by_cases h4 : c = '"'
          · subst h4
            rw [show replaceChar '\n' ("<br>".data) (escChar '"') = escChar '"' from by decide]
            rw [unBr_chunk _ _ (by decide), ih]
          · have hesc : escChar c = [c] := by simp [escChar, h1, h2, h3, h4]
            by_cases h5 : c = '\n'
            · subst h5
              have hrep : replaceChar '\n' ("<br>".data) (escChar '\n') =
                  '<' :: 'b' :: 'r' :: '>' :: [] := by decide
              rw [hrep, hesc]
              show unBr ('<' :: 'b' :: 'r' :: '>' :: (t.flatMap fun c =>
                replaceChar '\n' ("<br>".data) (escChar c))) = '\n' :: t.flatMap escChar
              rw [unBr_br, ih]
            · rw [hesc, show replaceChar '\n' ("<br>".data) [c] = [c] from by
                simp [replaceChar, h5]]
              rw [List.singleton_append, List.singleton_append, unBr_cons_ne c _ h2, ih]

/-- Undoing the line-break conversion on the rendered body text yields exactly
the escaped text: every newline was converted and nothing else produced the
line-break markup, because escaping leaves no plain less-than sign. -/
theorem unBr_htmlEscapeBody (l : List Char) :
    unBr (htmlEscapeBody l) = escape_xml l := by
  have hflat : htmlEscapeBody l =
      l.flatMap (fun c => replaceChar '\n' ("<br>".data) (escChar c)) := by
    rw [htmlEscapeBody, escape_xml_eq_flatMap, replaceChar, List.flatMap_assoc]
    rfl
  rw [hflat, unBr_flat, escape_xml_eq_flatMap]

/-- C5: escape_xml is exactly the character table replacing the four markup
characters by their entities; the inverse entity substitution applied to its
output reconstructs the input exactly; and in rendering, reversing the
line-break conversion and then the entity substitution on the rendered body
text reconstructs the body exactly, so every newline was converted to the
line-break markup. -/
theorem escape_xml_roundtrip (l : List Char) :
    escape_xml l = l.flatMap escChar ∧
    unescape_xml (escape_xml l) = l ∧
    unBr (htmlEscapeBody l) = escape_xml l ∧
    unescape_xml (unBr (htmlEscapeBody l)) = l := by
  refine ⟨escape_xml_eq_flatMap l, unescape_escape l, unBr_htmlEscapeBody l, ?_⟩
  rw [unBr_htmlEscapeBody l, unescape_escape l]

/-- Escaping lifted to strings. -/
def escapeStr (s : String) : String :=
  String.mk (escape_xml s.data)

/-- Line 116: escaped body text with newlines turned into line-break markup,
lifted to strings. -/
def htmlEscapeBodyStr (s : String) : String :=
  String.mk (htmlEscapeBody s.data)

/-- One user object of the includes.users array: id, username and name are all
required by the dictionary construction in lines 167 to 170. -/
structure ApiUser where
  id : String
  username : String
  name : String

/-- One media object of includes.media (lines 172 to 177): media_key required,
url and preview_image_url and type optional. -/
structure ApiMedia where
  media_key : String
  url : Option String
  preview_image_url : Option String
  type : Option String

/-- One element of a tweet referenced_tweets array: the target id is a
required index, the relation type is read with a default. -/
structure ApiRef where
  type : Option String
  id : String

/-- One tweet object: id and text are required indexes, the rest is read
through get with defaults. note_text stands for the text of a present,
non-empty note_tweet object. -/
structure ApiTweet where
  id : String
  author_id : Option String
  text : String
  note_text : Option String
  created_at : Option String
  media_keys : List String
  referenced_tweets : List ApiRef

/-- The structured fetch result: the data array and the three includes
arrays, each empty when the corresponding key is absent. -/
structure ApiData where
  data : List ApiTweet
  users : List ApiUser
  media : List ApiMedia
  tweets : List ApiTweet

/-- Python dictionary lookup on an association list built by insertion in list
order: the last binding of a key wins. -/
def dictFind {α : Type} (l : List (String × α)) (k : String) : Option α :=
  (l.reverse.find? (fun p => p.1 == k)).map Prod.snd

/-- Lines 167 to 170: the author directory keyed by user id. -/
def usersDir (d : ApiData) : List (String × ApiUser) :=
  d.users.map (fun u => (u.id, u))

/-- The value stored in the media directory: resolved url and type. -/
structure MediaVal where
  url : String
  type : String

/-- Lines 172 to 177: the media directory keyed by media_key; the url prefers
the direct url over the preview url, entries with no truthy url are skipped,
and a missing type defaults to photo. -/
def mediaDir (d : ApiData) : List (String × MediaVal) :=
  d.media.filterMap (fun m =>
    let url := match m.url with
      | some u => if u = "" then m.preview_image_url else some u
      | none => m.preview_image_url
    match url with
    | some u => if u = "" then none else some (m.media_key, ⟨u, (m.type).getD "photo"⟩)
    | none => none)

/-- Lines 179 to 182: the referenced-tweet directory keyed by tweet id. -/
def refDir (d : ApiData) : List (String × ApiTweet) :=
  d.tweets.map (fun t => (t.id, t))

/-- Lines 188 to 191: author resolution with sentinel values; an id absent
from the directory yields username unknown, and the display name falls back to
the username. -/
def resolveUser (users : List (String × ApiUser)) (author_id : String) : String × String :=
  match dictFind users author_id with
  | some u => (u.username, u.name)
  | none => ("unknown", "unknown")

/-- Lines 144 to 151: the label attached to a referenced tweet by relation
type. -/
def refLabel (ref_type : String) : String :=
  if ref_type = "replied_to" then "Replying to"
  else if ref_type = "quoted" then "Quoting"
  else if ref_type = "retweeted" then "Retweeted"
  else "Referenced"

/-- Collaborator interface for the datetime library calls of lines 196 to
199: formatting of a created_at string into the RFC-822-style pubDate text and
the long human-readable display date.  The library is external to the
program, so the two formatters are parameters of the model, like the fetch. -/
structure DateFmt where
  pubDate : String → String
  display : String → String

set_option linter.unusedVariables false in
/-- build_description_html, lines 111 to 162: the display paragraph, the
embedded card block, and one labeled block per resolved referenced tweet;
unresolved references produce nothing.  The media_urls argument is accepted
and unused exactly as in the source. -/
def build_description_html (tweet : ApiTweet) (username name tweet_id created_at_str : String)
    (media_urls : List String) (ref_tweets : List (String × ApiTweet))
    (users : List (String × ApiUser)) : String :=
  let tweet_text := match tweet.note_text with
    | some nt => nt
    | none => tweet.text
  let html_text := htmlEscapeBodyStr tweet_text
  let tweet_url := "https://twitter.com/" ++ username ++ "/status/" ++ tweet_id
  let part1 := "<p>" ++ html_text ++ "</p>"
  let part2 :=
    "<blockquote class=\"twitter-tweet\" data-width=\"550\">" ++
    "<p lang=\"en\" dir=\"ltr\">" ++ html_text ++ "</p>" ++
    "&mdash; " ++ escapeStr name ++ " (@" ++ escapeStr username ++ ") " ++
    "<a href=\"" ++ tweet_url ++ "\">" ++ created_at_str ++ "</a>" ++
    "</blockquote>" ++
    "<script async src=\"https://platform.twitter.com/widgets.js\" charset=\"utf-8\"></script>"
  let refParts := tweet.referenced_tweets.filterMap (fun ref =>
    (dictFind ref_tweets ref.id).map (fun rt =>
      let rt_author_id := (rt.author_id).getD ""
      let rt_user := dictFind users rt_author_id
      let rt_username := match rt_user with
        | some u => u.username
        | none => "unknown"
      let rt_name := match rt_user with
        | some u => u.name
        | none => rt_username
      let rt_text := htmlEscapeBodyStr rt.text
      let rt_url := "https://twitter.com/" ++ rt_username ++ "/status/" ++ ref.id
      let label := refLabel ((ref.type).getD "")
      "<p style=\"color:#666; font-size:0.9em;\">" ++ label ++ ":</p>" ++
      "<blockquote style=\"border-left:3px solid #ccc; padding-left:12px; margin-left:0;\">" ++
      "<p><strong>" ++ escapeStr rt_name ++ "</strong> " ++
      "<a href=\"" ++ rt_url ++ "\" style=\"color:#1da1f2;\">@" ++ escapeStr rt_username ++ "</a></p>" ++
      "<p>" ++ rt_text ++ "</p>" ++
      "</blockquote>"))
  String.join ([part1, part2] ++ refParts)

/-- The loop body of build_items_xml, lines 187 to 231: one item block for one
tweet. -/
def renderItem (fmt : DateFmt) (users : List (String × ApiUser))
    (media : List (String × MediaVal)) (ref_tweets : List (String × ApiTweet))
    (tweet : ApiTweet) : String :=
  let author_id := (tweet.author_id).getD ""
  let un := resolveUser users author_id
  let username := un.1
  let name := un.2
  let tweet_url := "https://x.com/" ++ username ++ "/status/" ++ tweet.id
  let pub_date := match tweet.created_at with
    | some c => fmt.pubDate c
    | none => ""
  let created_at_display := match tweet.created_at with
    | some c => fmt.display c
    | none => ""
  let media_urls := tweet.media_keys.filterMap (fun mk =>
    (dictFind media mk).map (fun m => m.url))
  let description_html := build_description_html tweet username name tweet.id
    created_at_display media_urls ref_tweets users
  let lines :=
    ["    <item>",
     "      <title><![CDATA[" ++ name ++ " (@" ++ username ++ ")]]></title>",
     "      <description><![CDATA[" ++ description_html ++ "]]></description>",
     "      <content:encoded><![CDATA[" ++ description_html ++ "]]></content:encoded>",
     "      <link>" ++ tweet_url ++ "</link>",
     "      <guid>" ++ tweet.id ++ "</guid>"] ++
    (if pub_date ≠ "" then ["      <pubDate>" ++ pub_date ++ "</pubDate>"] else []) ++
    (tweet.media_keys.filterMap (fun mk =>
      (dictFind media mk).map (fun m =>
        let medium := if m.type = "video" then "video" else "image"
        "      <media:content medium=\"" ++ medium ++ "\" url=\"" ++ escapeStr m.url ++ "\" />"))) ++
    ["    </item>"]
  String.intercalate "\n" lines

/-- build_items_xml, lines 165 to 233: the three directories are built from
the includes, then the items list is grown by one rendered block per tweet of
the data array, in order. -/
def build_items_xml (fmt : DateFmt) (tweets_data : ApiData) : List String :=
  let users := usersDir tweets_data
  let media := mediaDir tweets_data
  let ref_tweets := refDir tweets_data
  let tweets := tweets_data.data
  tweets.foldl (fun items tweet => items ++ [renderItem fmt users media ref_tweets tweet]) []

theorem foldl_append_eq_map {α β : Type} (f : α → β) (l : List α) (acc : List β) :
    l.foldl (fun items x => items ++ [f x]) acc = acc ++ l.map f := by
  induction l generalizing acc with
  | nil => simp
  | cons x t ih => simp [List.foldl_cons, ih]

/-- C8: build_items_xml produces exactly one rendered item per input item, in
input order; an author id absent from the user directory resolves to the
sentinel username unknown with the display name falling back to it, while a
present id resolves to the stored username and name; and a media key absent
from the media directory contributes no media line instead of affecting the
item. -/
theorem build_items_xml_total (fmt : DateFmt) (d : ApiData) :
    build_items_xml fmt d =
      d.data.map (renderItem fmt (usersDir d) (mediaDir d) (refDir d)) ∧
    (build_items_xml fmt d).length = d.data.length ∧
    (∀ users aid, dictFind users aid = none →
      resolveUser users aid = ("unknown", "unknown")) ∧
    (∀ users aid u, dictFind users aid = some u →
      resolveUser users aid = (u.username, u.name)) ∧
    (∀ (media : List (String × MediaVal)) (mks : List String),
      (∀ mk ∈ mks, dictFind media mk = none) →
      mks.filterMap (fun mk => (dictFind media mk).map (fun m => m.url)) = []) := by
  refine ⟨?_, ?_, ?_, ?_, ?_⟩
  · simpa using foldl_append_eq_map (renderItem fmt (usersDir d) (mediaDir d) (refDir d)) d.data []
  · rw [build_items_xml]
    rw [foldl_append_eq_map (renderItem fmt (usersDir d) (mediaDir d) (refDir d)) d.data []]
    simp
  · intro users aid h
    simp [resolveUser, h]
  · intro users aid u h
    simp [resolveUser, h]
  · intro media mks h
    rw [List.filterMap_eq_nil_iff]
    intro mk hmk
    simp [h mk hmk]

/-- Closed instance discharging the hypotheses of build_items_xml_total. -/
theorem build_items_xml_total_witness :
    resolveUser [] "42" = ("unknown", "unknown") :=
  (build_items_xml_total ⟨fun _ => "", fun _ => ""⟩ ⟨[], [], [], []⟩).2.2.1 [] "42" rfl

/-- Persistent state surviving across runs: the cursor file content (none when
the file is absent or blank, as in read_last_seen_id, lines 60 to 67) and the
item blocks of the feed document (none when the file is absent). -/
structure WorldState where
  lastSeen : Option String
  feed : Option (List String)
deriving DecidableEq

/-- Outcome of the fetch collaborator (search_recent_tweets): a structured
result, or an HTTP error carrying its status code. -/
inductive FetchResult where
  | ok (data : ApiData)
  | httpError (code : Nat)

/-- The control flow of main, lines 275 to 329, from the fetch on: the run
reads the cursor, performs one fetch keyed by it, exits 0 on a 429 error and 1
on any other HTTP error, exits 0 with no writes when the data array is empty,
and otherwise writes the cursor from the first fetched tweet, renders, merges
with the parsed previous document and writes the feed.  The returned pair is
the process exit status and the final file state. -/
def runMain (fetch : Option String → FetchResult) (fmt : DateFmt) (w : WorldState) :
    Nat × WorldState :=
  let since_id := w.lastSeen
  match fetch since_id with
  | .httpError code =>
    if code = 429 then (0, w) else (1, w)
  | .ok data =>
    match data.data with
    | [] => (0, w)
    | t :: _ =>
      let w1 : WorldState := { w with lastSeen := some t.id }
      let new_items := build_items_xml fmt data
      let existing := toStoredEntries ((w1.feed).getD [])
      let all_items := mergeItems new_items existing
      (0, { w1 with feed := some all_items })

/-- C6: a fetch that signals HTTP 429 ends the run with exit status 0 and
leaves both the cursor and the feed document unchanged; a fetch that raises
any other HTTP error ends the run with exit status 1 and leaves both
unchanged. -/
theorem runMain_http_error (fetch : Option String → FetchResult) (fmt : DateFmt)
    (w : WorldState) :
    (fetch w.lastSeen = .httpError 429 → runMain fetch fmt w = (0, w)) ∧
    (∀ code, fetch w.lastSeen = .httpError code → code ≠ 429 →
      runMain fetch fmt w = (1, w)) := by
  constructor
  · intro h
    simp [runMain, h]
  · intro code h hne
    simp [runMain, h, hne]

/-- Closed instance discharging the hypotheses of runMain_http_error. -/
theorem runMain_http_error_witness :
    runMain (fun _ => .httpError 429) ⟨fun _ => "", fun _ => ""⟩ ⟨none, none⟩ =
      (0, ⟨none, none⟩) :=
  (runMain_http_error (fun _ => .httpError 429) ⟨fun _ => "", fun _ => ""⟩ ⟨none, none⟩).1 rfl

/-- C7: a successful fetch returning no items ends the run with exit status 0
and both files unchanged, and whenever the run changes any file state the
fetch returned a non-empty item list; together with runMain_http_error this
shows the cursor and document writes happen only after a successful fetch with
at least one item. -/
theorem runMain_write_gate (fetch : Option String → FetchResult) (fmt : DateFmt)
    (w : WorldState) :
    (∀ data, fetch w.lastSeen = .ok data → data.data = [] →
      runMain fetch fmt w = (0, w)) ∧
    ((runMain fetch fmt w).2 ≠ w →
      ∃ data t rest, fetch w.lastSeen = .ok data ∧ data.data = t :: rest) := by
  constructor
  · intro data h hempty
    simp [runMain, h, hempty]
  · intro hch
    cases hf : fetch w.lastSeen with
    | httpError code =>
      by_cases h429 : code = 429
      · subst h429
        simp [runMain, hf] at hch
      · simp [runMain, hf, h429] at hch
    | ok data =>
      cases hd : data.data with
      | nil => simp [runMain, hf, hd] at hch
      | cons t rest => exact ⟨data, t, rest, rfl, hd⟩

/-- Closed instance discharging the hypotheses of runMain_write_gate. -/
theorem runMain_write_gate_witness :
    runMain (fun _ => .ok ⟨[], [], [], []⟩) ⟨fun _ => "", fun _ => ""⟩ ⟨none, none⟩ =
      (0, ⟨none, none⟩) :=
  (runMain_write_gate (fun _ => .ok ⟨[], [], [], []⟩) ⟨fun _ => "", fun _ => ""⟩
    ⟨none, none⟩).1 ⟨[], [], [], []⟩ rfl rfl

/-- C9: after a successful fetch with a non-empty item list the cursor holds
the identifier of the first (newest) fetched item; in every other case the
cursor is unchanged; and when every fetched item identifier is at least the
current cursor value, the cursor never decreases across a run. -/
theorem runMain_cursor (fetch : Option String → FetchResult) (fmt : DateFmt)
    (w : WorldState) :
    (∀ data t rest, fetch w.lastSeen = .ok data → data.data = t :: rest →
      (runMain fetch fmt w).2.lastSeen = some t.id) ∧
    (∀ code, fetch w.lastSeen = .httpError code →
      (runMain fetch fmt w).2.lastSeen = w.lastSeen) ∧
    (∀ data, fetch w.lastSeen = .ok data → data.data = [] →
      (runMain fetch fmt w).2.lastSeen = w.lastSeen) ∧
    (∀ c₀, w.lastSeen = some c₀ →
      (∀ data, fetch w.lastSeen = .ok data → ∀ t ∈ data.data, c₀ ≤ t.id) →
      ∃ c₁, (runMain fetch fmt w).2.lastSeen = some c₁ ∧ c₀ ≤ c₁) := by
  refine ⟨?_, ?_, ?_, ?_⟩
  · intro data t rest h hd
    simp [runMain, h, hd]
  · intro code h
    by_cases h429 : code = 429
    · subst h429; simp [runMain, h]
    · simp [runMain, h, h429]
  · intro data h hd
    simp [runMain, h, hd]
  · intro c₀ hc hmono
    cases hf : fetch w.lastSeen with
    | httpError code =>
      refine ⟨c₀, ?_, le_refl c₀⟩
      by_cases h429 : code = 429
      · subst h429; simpa [runMain, hf] using hc
      · simpa [runMain, hf, h429] using hc
    | ok data =>
      cases hd : data.data with
      | nil =>
        refine ⟨c₀, ?_, le_refl c₀⟩
        simpa [runMain, hf, hd] using hc
      | cons t rest =>
        refine ⟨t.id, ?_, ?_⟩
        · simp [runMain, hf, hd]
        · exact hmono data hf t (by simp [hd])

/-- Closed instance discharging the hypotheses of runMain_cursor. -/
theorem runMain_cursor_witness :
    (runMain (fun _ => .ok ⟨[⟨"9", none, "", none, none, [], []⟩], [], [], []⟩)
      ⟨fun _ => "", fun _ => ""⟩ ⟨some "5", none⟩).2.lastSeen = some "9" :=
  (runMain_cursor (fun _ => .ok ⟨[⟨"9", none, "", none, none, [], []⟩], [], [], []⟩)
    ⟨fun _ => "", fun _ => ""⟩ ⟨some "5", none⟩).1
    ⟨[⟨"9", none, "", none, none, [], []⟩], [], [], []⟩
    ⟨"9", none, "", none, none, [], []⟩ [] rfl rfl

/-- Python truthiness of an optional string: an unset variable and an empty
string are both falsy. -/
def truthy (o : Option String) : Bool :=
  match o with
  | some s => !(s == "")
  | none => false

/-- Python str.partition at the first equals sign, keeping the before and
after parts: a line with no equals sign yields the whole line and the empty
string, as in line 43. -/
def partitionEq (s : String) : String × String :=
  match splitFirst ['='] s.data with
  | some (pre, post) => (String.mk pre, String.mk post)
  | none => (s, "")

/-- One iteration of the .env reading loop, lines 39 to 48: blank lines and
comment lines are skipped, otherwise the line is split at the first equals
sign, both parts stripped, and the value adopted only when its key matches and
the corresponding variable is still falsy. -/
def applyEnvLine (st : Option String × Option String) (line : String) :
    Option String × Option String :=
  let l := line.trim
  if l = "" || l.startsWith "#" then st
  else
    let kv := partitionEq l
    let key := kv.1.trim
    let value := kv.2.trim
    if key = "X_BEARER_TOKEN" && !(truthy st.1) then (some value, st.2)
    else if key = "X_FOLLOW_ACCOUNTS" && !(truthy st.2) then (st.1, some value)
    else st

/-- get_config, lines 27 to 57: environment values are returned directly when
both are truthy; otherwise the .env lines (when the file exists) may fill in
still-falsy variables; a final falsy variable aborts the run, modelled as
none. -/
def get_config (envB envA : Option String) (dotenv : Option (List String)) :
    Option (String × String) :=
  if truthy envB && truthy envA then some (envB.getD "", envA.getD "")
  else
    let st := match dotenv with
      | some ls => ls.foldl applyEnvLine (envB, envA)
      | none => (envB, envA)
    if !(truthy st.1) then none
    else if !(truthy st.2) then none
    else some (st.1.getD "", st.2.getD "")

theorem applyEnvLine_fst (st : Option String × Option String) (l : String)
    (h : truthy st.1 = true) : (applyEnvLine st l).1 = st.1 := by
  simp only [applyEnvLine]
  split
  · rfl
  · split
    · next hc =>
      rw [h] at hc
      simp at hc
    · split
      · rfl
      · rfl

theorem applyEnvLine_snd (st : Option String × Option String) (l : String)
    (h : truthy st.2 = true) : (applyEnvLine st l).2 = st.2 := by
  simp only [applyEnvLine]
  split
  · rfl
  · split
    · rfl
    · split
      · next hc =>
        rw [h] at hc
        simp at hc
      · rfl

theorem foldl_applyEnvLine_fst (ls : List String) (st : Option String × Option String)
    (h : truthy st.1 = true) : (ls.foldl applyEnvLine st).1 = st.1 := by
  induction ls generalizing st with
  | nil => rfl
  | cons l t ih =>
    rw [List.foldl_cons]
    have h1 := applyEnvLine_fst st l h
    rw [ih (applyEnvLine st l) (by rw [h1]; exact h), h1]

theorem foldl_applyEnvLine_snd (ls : List String) (st : Option String × Option String)
    (h : truthy st.2 = true) : (ls.foldl applyEnvLine st).2 = st.2 := by
  induction ls generalizing st with
  | nil => rfl
  | cons l t ih =>
    rw [List.foldl_cons]
    have h1 := applyEnvLine_snd st l h
    rw [ih (applyEnvLine st l) (by rw [h1]; exact h), h1]

/-- C10: when both environment values are present and non-empty, get_config
returns exactly them, whatever the .env file holds; and a present non-empty
environment value is never overridden: whenever get_config succeeds, each
result component equals the corresponding environment value if that one was
truthy, for every .env content. -/
theorem get_config_env_precedence (envB envA : Option String) (dotenv : Option (List String)) :
    (truthy envB = true → truthy envA = true →
      get_config envB envA dotenv = some (envB.getD "", envA.getD "")) ∧
    (truthy envB = true → ∀ r, get_config envB envA dotenv = some r → r.1 = envB.getD "") ∧
    (truthy envA = true → ∀ r, get_config envB envA dotenv = some r → r.2 = envA.getD "") := by
  refine ⟨?_, ?_, ?_⟩
  · intro hB hA
    simp [get_config, hB, hA]
  · intro hB r hr
    by_cases hA : truthy envA = true
    · rw [get_config.eq_def] at hr
      rw [hB, hA] at hr
      simp at hr
      rw [← hr]
    · have hA2 : truthy envA = false := by
        cases h : truthy envA
        · rfl
        · exact absurd h hA
      rw [get_config.eq_def] at hr
      rw [hB, hA2] at hr
      simp only [Bool.and_false, Bool.false_eq_true, if_false] at hr
      cases hd : dotenv with
      | none =>
        rw [hd] at hr
        rw [show truthy (envB, envA).1 = true from hB] at hr
        simp only [Bool.not_true, Bool.false_eq_true, if_false] at hr
        by_cases h2 : truthy (envB, envA).2 = true
        · rw [h2] at hr
          simp at hr
          rw [← hr]
        · have h2f : truthy (envB, envA).2 = false := by
            cases h : truthy (envB, envA).2
            · rfl
            · exact absurd h h2
          rw [h2f] at hr
          simp at hr
      | some ls =>
        rw [hd] at hr
        have hfst : (ls.foldl applyEnvLine (envB, envA)).1 = envB :=
          foldl_applyEnvLine_fst ls (envB, envA) hB
        rw [show truthy (ls.foldl applyEnvLine (envB, envA)).1 = true from by
          rw [hfst]; exact hB] at hr
        simp only [Bool.not_true, Bool.false_eq_true, if_false] at hr
        by_cases h2 : truthy (ls.foldl applyEnvLine (envB, envA)).2 = true
        · rw [h2] at hr
          simp at hr
          rw [← hr, hfst]
        · have h2f : truthy (ls.foldl applyEnvLine (envB, envA)).2 = false := by
            cases h : truthy (ls.foldl applyEnvLine (envB, envA)).2
            · rfl
            · exact absurd h h2
          rw [h2f] at hr
          simp at hr
  · intro hA r hr
    by_cases hB : truthy envB = true
    · rw [get_config.eq_def] at hr
      rw [hB, hA] at hr
      simp at hr
      rw [← hr]
    · have hB2 : truthy envB = false := by
        cases h : truthy envB
        · rfl
        · exact absurd h hB
      rw [get_config.eq_def] at hr
      rw [hB2] at hr
      simp only [Bool.false_and, Bool.false_eq_true, if_false] at hr
      cases hd : dotenv with
      | none =>
        rw [hd] at hr
        by_cases h1 : truthy (envB, envA).1 = true
        · rw [h1] at hr
          simp only [Bool.not_true, Bool.false_eq_true, if_false] at hr
          rw [show truthy (envB, envA).2 = true from hA] at hr
          simp at hr
          rw [← hr]
        · have h1f : truthy (envB, envA).1 = false := by
            cases h : truthy (envB, envA).1
            · rfl
            · exact absurd h h1
          rw [h1f] at hr
          simp at hr
      | some ls =>
        rw [hd] at hr
        have hsnd : (ls.foldl applyEnvLine (envB, envA)).2 = envA :=
          foldl_applyEnvLine_snd ls (envB, envA) hA
        by_cases h1 : truthy (ls.foldl applyEnvLine (envB, envA)).1 = true
        · rw [h1] at hr
          simp only [Bool.not_true, Bool.false_eq_true, if_false] at hr
          rw [show truthy (ls.foldl applyEnvLine (envB, envA)).2 = true from by
            rw [hsnd]; exact hA] at hr
          simp at hr
          rw [← hr, hsnd]
        · have h1f : truthy (ls.foldl applyEnvLine (envB, envA)).1 = false := by
            cases h : truthy (ls.foldl applyEnvLine (envB, envA)).1
            · rfl
            · exact absurd h h1
          rw [h1f] at hr
          simp at hr

/-- Closed instance discharging the hypotheses of get_config_env_precedence. -/
theorem get_config_env_precedence_witness :
    get_config (some "tok") (some "acct") (some ["X_BEARER_TOKEN=other"]) =
      some ("tok", "acct") :=
  (get_config_env_precedence (some "tok") (some "acct")
    (some ["X_BEARER_TOKEN=other"])).1 (by decide) (by decide)

end TwitterFeed
